import Mathlib

/-!
Verification of the charlie CSRF-token codec.

The development shallowly embeds the Go sources:

* `charlie.go` — the MAC variant: `Params`, `New`, `Generate`, `Validate`,
  `hmacSHA256`, `dataSize`, `macSize`.
* `http_handler.go` — the codec construction performed by `HTTPParams.Wrap`.
* the alternate AEAD variant (`TokenParams`) kept in the repository.

Bytes are modelled as `List Nat` (each element `< 256` where it matters),
time as `Int` nanoseconds since the Unix epoch (Go `time.Time` /
`time.Duration`), and the external crypto primitives (HMAC-SHA256 and
AES-GCM) as function parameters, since they live outside this repository.
Go slice-bound panics are modelled explicitly by the `VResult.panicked`
result.
-/

namespace Charlie

/-- A byte string: each element is a byte value (kept `< 256` by
construction or by hypothesis). -/
abbrev Bytes := List Nat

/-! ## Base64 URL encoding (Go `encoding/base64`, `URLEncoding`, padded) -/

/-- Index of a character in the base64-url alphabet
`A-Z a-z 0-9 - _` (Go `URLEncoding`'s decode map). -/
def charIndex (c : Char) : Option Nat :=
  let n := c.toNat
  if 65 ≤ n ∧ n ≤ 90 then some (n - 65)
  else if 97 ≤ n ∧ n ≤ 122 then some (n - 97 + 26)
  else if 48 ≤ n ∧ n ≤ 57 then some (n - 48 + 52)
  else if n = 45 then some 62
  else if n = 95 then some 63
  else none

/-- Character of the base64-url alphabet at index `v` (Go `URLEncoding`'s
encode map); only indices `< 64` occur. -/
def b64Char (v : Nat) : Char :=
  if v < 26 then Char.ofNat (65 + v)
  else if v < 52 then Char.ofNat (97 + (v - 26))
  else if v < 62 then Char.ofNat (48 + (v - 52))
  else if v = 62 then '-'
  else '_'

/-- Encoding of a byte string into base64 characters, three bytes to a
four-character quantum, `=`-padded (Go `Encoding.Encode`). -/
def encodeChunks : Bytes → List Char
  | [] => []
  | [a] => [b64Char (a / 4), b64Char (a % 4 * 16), '=', '=']
  | [a, b] => [b64Char (a / 4), b64Char (a % 4 * 16 + b / 16), b64Char (b % 16 * 4), '=']
  | a :: b :: c :: rest =>
      b64Char (a / 4) :: b64Char (a % 4 * 16 + b / 16) ::
      b64Char (b % 16 * 4 + c / 64) :: b64Char (c % 64) :: encodeChunks rest

/-- Go `base64.URLEncoding.EncodeToString`. -/
def encodeToString (bs : Bytes) : String := String.mk (encodeChunks bs)

/-- True for characters Go's base64 decoder does not skip (it ignores
`\n` and `\r` wherever they appear in the input). -/
def notNL (c : Char) : Bool := !(c == '\n' || c == '\r')

/-- Decoding of a newline-filtered character stream, four characters to a
quantum; `=` padding is accepted only at the end of the input, in the last
one or two positions of the final quantum; any other shape is an error
(`none`).  Unused trailing bits are ignored, as in Go's non-strict
decoder. -/
def decodeChunks : List Char → Option Bytes
  | [] => some []
  | c0 :: c1 :: c2 :: c3 :: rest =>
    match charIndex c0, charIndex c1 with
    | some v0, some v1 =>
      if c2 = '=' then
        if c3 = '=' ∧ rest = [] then some [v0 * 4 + v1 / 16] else none
      else
        match charIndex c2 with
        | some v2 =>
          if c3 = '=' then
            if rest = [] then some [v0 * 4 + v1 / 16, v1 % 16 * 16 + v2 / 4] else none
          else
            match charIndex c3 with
            | some v3 =>
              (decodeChunks rest).map fun tl =>
                (v0 * 4 + v1 / 16) :: (v1 % 16 * 16 + v2 / 4) :: (v2 % 4 * 64 + v3) :: tl
            | none => none
        | none => none
    | _, _ => none
  | _ => none

/-- Go `base64.URLEncoding.DecodeString`; the error value stands for Go's
`CorruptInputError` (its position is irrelevant to the claims). -/
def decodeString (s : String) : Except String Bytes :=
  match decodeChunks (s.data.filter notNL) with
  | some bs => .ok bs
  | none => .error "illegal base64 data at input byte"

/-- Capacity of the buffer Go's `DecodeString` allocates:
`DecodedLen(len(s)) = len(s)/4*3` for a padded encoding.  The decoded
result is a prefix of this buffer; the rest of the capacity stays
zero-filled. -/
def decodedCap (s : String) : Nat := s.length / 4 * 3

/-! ## Binary framing (Go `encoding/binary`, big-endian) -/

/-- Go `binary.BigEndian.PutUint32` into a fresh 4-byte buffer. -/
def u32be (v : Nat) : Bytes :=
  [v / 16777216 % 256, v / 65536 % 256, v / 256 % 256, v % 256]

/-- Go `binary.BigEndian.Uint32` (reads the first four bytes; callers in
this development always pass at least four). -/
def beUint32 : Bytes → Nat
  | a :: b :: c :: d :: _ => a * 16777216 + b * 65536 + c * 256 + d
  | _ => 0

/-! ## Go time arithmetic -/

/-- `time.Time.Unix`: whole seconds of a clock reading given in
nanoseconds since the epoch (floor division; Lean's `Int` `/` is
Euclidean division, which is floor for a positive divisor). -/
def unixSec (t : Int) : Int := t / 1000000000

/-- `time.Time.Sub` in nanoseconds: exact difference clamped to the
`int64` range of `time.Duration` (Go saturates at
`minDuration`/`maxDuration` on overflow). -/
def goSub (a b : Int) : Int :=
  max (-9223372036854775808) (min 9223372036854775807 (a - b))

/-! ## The MAC variant (`charlie.go`) -/

/-- `dataSize = 4` — 32-bit timestamps. -/
def dataSize : Nat := 4

/-- `macSize = 16`. -/
def macSize : Nat := 16

/-- UTF-8 bytes of one character (Go `[]byte(string)` conversion). -/
def utf8Char (c : Char) : Bytes :=
  let n := c.toNat
  if n < 128 then [n]
  else if n < 2048 then [192 + n / 64, 128 + n % 64]
  else if n < 65536 then [224 + n / 4096, 128 + n / 64 % 64, 128 + n % 64]
  else [240 + n / 262144, 128 + n / 4096 % 64, 128 + n / 64 % 64, 128 + n % 64]

/-- UTF-8 bytes of a string (Go `[]byte(id)`). -/
def utf8Bytes (s : String) : Bytes := s.data.flatMap utf8Char

/-- `hmacSHA256(key, data, id)`: the external HMAC-SHA256 primitive `hm`
is applied to the key and to the written stream `data ‖ id`, and the
32-byte digest is truncated to `macSize` bytes, exactly as
`h.Sum(nil)[:macSize]` does. -/
def hmacSHA256 (hm : Bytes → Bytes → Bytes) (key data : Bytes) (id : String) : Bytes :=
  (hm key (data ++ utf8Bytes id)).take macSize

/-- The contract of the external HMAC-SHA256 primitive: 32-byte,
byte-valued output. -/
def GoodHM (hm : Bytes → Bytes → Bytes) : Prop :=
  ∀ k m, (hm k m).length = 32 ∧ ∀ b ∈ hm k m, b < 256

/-- Go `Params`: the key, the maximum token age in nanoseconds
(`time.Duration`), and the external HMAC-SHA256 primitive it closes
over.  The injected clock (`timer`) is passed to `Generate`/`Validate`
as the explicit `now` argument. -/
structure Params where
  hm : Bytes → Bytes → Bytes
  key : Bytes
  MaxAge : Int

/-- Go's `k := make([]byte, len(key)); copy(k, key)`: a fresh buffer
whose bytes are read element-wise from the argument. -/
def goCopy (b : Bytes) : Bytes := (List.range b.length).map fun i => b.getD i 0

/-- `New(key)`: copies the key and sets the 10-minute default `MaxAge`
(`10 * time.Minute` nanoseconds). -/
def New (hm : Bytes → Bytes → Bytes) (key : Bytes) : Params :=
  { hm := hm, key := goCopy key, MaxAge := 600000000000 }

/-- `Params.Generate`: big-endian `uint32(now.Unix())` timestamp followed
by the truncated HMAC over timestamp ‖ id, base64-url encoded.  `now` is
the clock reading (`p.timer()`) in nanoseconds. -/
def Generate (p : Params) (now : Int) (id : String) : String :=
  encodeToString
    (u32be ((unixSec now % 4294967296).toNat) ++
     hmacSHA256 p.hm p.key (u32be ((unixSec now % 4294967296).toNat)) id)

/-- Result of a validation call: normal success, a returned Go `error`
value (carrying its message), or a runtime panic. -/
inductive VResult
  | ok
  | err (e : String)
  | panicked
deriving DecidableEq, Repr

/-- `Params.Validate`, including the slice-bound pre-conditions of
`mac := data[dataSize:][:macSize]`: the first slice panics when the
decoded buffer holds fewer than `dataSize` bytes, the second when the
buffer's capacity (`decodedCap`) is below `dataSize + macSize`; the
`[:macSize]` reslice may extend past the decoded length into the
zero-filled capacity of the buffer `DecodeString` allocated. -/
def Validate (p : Params) (now : Int) (id token : String) : VResult :=
  match decodeString token with
  | .error _ => .err "invalid token"
  | .ok data =>
    if data.length < dataSize then .panicked
    else if decodedCap token < dataSize + macSize then .panicked
    else if hmacSHA256 p.hm p.key (data.take dataSize) id =
        ((data ++ List.replicate (decodedCap token - data.length) 0).drop dataSize).take macSize then
      if goSub now ((beUint32 (data.take dataSize) : Int) * 1000000000) > p.MaxAge then
        .err "invalid token"
      else .ok
    else .err "invalid token"

/-! ## The codec built by the HTTP adapter (`http_handler.go`) -/

/-- The fields of Go `HTTPParams` relevant to codec construction. -/
structure HTTPParams where
  Key : Bytes

/-- The codec `HTTPParams.Wrap` builds:
`csrf := New(hp.Key); csrf.MaxAge = 3 * time.Hour`. -/
def wrapCodec (hm : Bytes → Bytes → Bytes) (hp : HTTPParams) : Params :=
  { New hm hp.Key with MaxAge := 10800000000000 }

/-! ## The AEAD variant (`TokenParams`, the alternate implementation kept
in the repository) -/

/-- The AEAD variant's parameters.  The AES-GCM primitive obtained from
`cipher.NewGCM` is external to the repository and is modelled by its
nonce size together with the `sealAEAD`/`openAEAD` functions
(`Seal` appends ciphertext‖tag for a plaintext and associated data;
`Open` recovers the plaintext or fails). -/
structure TokenParams where
  nonceSize : Nat
  sealAEAD : Bytes → Bytes → Bytes → Bytes
  openAEAD : Bytes → Bytes → Bytes → Option Bytes
  MaxAge : Int

/-- `TokenParams.Generate`: a fresh random `nonce` (passed explicitly,
modelling the read from `crypto/rand`), the sealed 4-byte big-endian
timestamp with the identity as associated data, base64-url encoded.
`Seal(nonce, nonce, data, []byte(id))` appends its output to the nonce. -/
def TokenParams.Generate (p : TokenParams) (nonce : Bytes) (now : Int) (id : String) : String :=
  encodeToString (nonce ++ p.sealAEAD nonce (u32be ((unixSec now % 4294967296).toNat)) (utf8Bytes id))

/-- `TokenParams.Validate`, with the slice-bound pre-conditions of
`nonce := data[0:p.aead.NonceSize()]` (panics when the decoded buffer's
capacity is below the nonce size) and `data = data[p.aead.NonceSize():]`
(panics when its length is), and of `binary.BigEndian.Uint32(b)` on a
recovered plaintext shorter than four bytes. -/
def TokenParams.Validate (p : TokenParams) (now : Int) (id token : String) : VResult :=
  match decodeString token with
  | .error _ => .err "charlie: invalid token"
  | .ok data =>
    if decodedCap token < p.nonceSize then .panicked
    else if data.length < p.nonceSize then .panicked
    else
      match p.openAEAD
          ((data ++ List.replicate (decodedCap token - data.length) 0).take p.nonceSize)
          (data.drop p.nonceSize) (utf8Bytes id) with
      | none => .err "charlie: invalid token"
      | some b =>
        if b.length < 4 then .panicked
        else if goSub now ((beUint32 b : Int) * 1000000000) > p.MaxAge then
          .err "charlie: invalid token"
        else .ok

/-! ## A heap model of `New`'s key copy

`New` receives the caller's key slice and copies it into a fresh buffer
(`k := make([]byte, len(key)); copy(k, key)`).  To express that a later
mutation of the caller's buffer cannot change the codec's behaviour, the
buffers are modelled explicitly: a heap is a list of byte buffers, the
caller's key lives at an index, and `NewRef` allocates the fresh copy at
the end of the heap, returning a codec that refers to the new buffer. -/

/-- A codec whose key is a reference into a heap of buffers. -/
structure CodecRef where
  keyRef : Nat
  MaxAge : Int

/-- `New` over the heap model: allocates a fresh copy of the buffer at
`src` and points the codec at the copy. -/
def NewRef (heap : List Bytes) (src : Nat) : List Bytes × CodecRef :=
  (heap ++ [goCopy (heap.getD src [])], { keyRef := heap.length, MaxAge := 600000000000 })

/-- In-place mutation of the buffer at index `i` of the heap. -/
def heapWrite (heap : List Bytes) (i : Nat) (b : Bytes) : List Bytes := heap.set i b

/-- `Generate` reading the codec's key out of the heap. -/
def GenerateRef (hm : Bytes → Bytes → Bytes) (heap : List Bytes) (c : CodecRef)
    (now : Int) (id : String) : String :=
  Generate { hm := hm, key := heap.getD c.keyRef [], MaxAge := c.MaxAge } now id

/-- `Validate` reading the codec's key out of the heap. -/
def ValidateRef (hm : Bytes → Bytes → Bytes) (heap : List Bytes) (c : CodecRef)
    (now : Int) (id token : String) : VResult :=
  Validate { hm := hm, key := heap.getD c.keyRef [], MaxAge := c.MaxAge } now id token

/-! ## Concrete instances used by witnesses and counterexamples

The external HMAC-SHA256 primitive is replaced by an executable stand-in
that satisfies its contract (`GoodHM`): 32 bytes of output, each below
256. -/

/-- An executable stand-in for the external HMAC-SHA256 primitive. -/
def toyHm (k m : Bytes) : Bytes := (List.range 32).map fun i => (k.sum + m.sum + i) % 256

/-- A concrete codec for witnesses: `New` with the stand-in primitive. -/
def toyParams : Params := New toyHm [11, 22]

/-- An executable stand-in for the sealing direction of AES-GCM:
ciphertext of the plaintext's length plus a 16-byte tag. -/
def toySeal (nonce pt ad : Bytes) : Bytes :=
  pt.map (fun b => (b + nonce.sum + ad.sum) % 256) ++ (List.range 16).map (· % 256)

/-- A concrete AEAD codec for witnesses (12-byte GCM nonce). -/
def toyTokenParams : TokenParams :=
  { nonceSize := 12, sealAEAD := toySeal, openAEAD := fun _ _ _ => none, MaxAge := 600000000000 }

/-! ## Lemmas about the base64 codec -/

/-- Alphabet characters survive the newline filter, are distinct from the
padding character, and decode back to their index. -/
theorem b64Char_spec : ∀ v : Fin 64,
    notNL (b64Char v.val) = true ∧ b64Char v.val ≠ '=' ∧
      charIndex (b64Char v.val) = some v.val := by
  decide

/-- The padding character survives the newline filter. -/
theorem notNL_pad : notNL '=' = true := by decide

/-- Length of the base64 encoding: four characters for every (started)
three-byte group. -/
theorem encodeChunks_length (bs : Bytes) :
    (encodeChunks bs).length = (bs.length + 2) / 3 * 4 := by
  induction bs using encodeChunks.induct with
  | case1 => simp [encodeChunks]
  | case2 a => simp [encodeChunks]
  | case3 a b => simp [encodeChunks]
  | case4 a b c rest ih =>
    simp only [encodeChunks, List.length_cons, ih]
    omega

/-- Decoding is a left inverse of encoding on byte-valued strings
(including the newline filter Go's decoder applies). -/
theorem decode_encodeChunks (bs : Bytes) (hb : ∀ x ∈ bs, x < 256) :
    decodeChunks ((encodeChunks bs).filter notNL) = some bs := by
  induction bs using encodeChunks.induct with
  | case1 => simp [encodeChunks, decodeChunks]
  | case2 a =>
    have ha : a < 256 := hb a (by simp)
    have h0 := b64Char_spec ⟨a / 4, by omega⟩
    have h1 := b64Char_spec ⟨a % 4 * 16, by omega⟩
    simp only [encodeChunks, List.filter, h0.1, h1.1, notNL_pad]
    simp only [decodeChunks, h0.2.2, h1.2.2]
    simp only [h1.2.1, if_neg, reduceIte, and_self, Option.some.injEq, List.cons.injEq, and_true]
    omega
  | case3 a b =>
    have ha : a < 256 := hb a (by simp)
    have hbb : b < 256 := hb b (by simp)
    have h0 := b64Char_spec ⟨a / 4, by omega⟩
    have h1 := b64Char_spec ⟨a % 4 * 16 + b / 16, by omega⟩
    have h2 := b64Char_spec ⟨b % 16 * 4, by omega⟩
    simp only [encodeChunks, List.filter, h0.1, h1.1, h2.1, notNL_pad]
    simp only [decodeChunks, h0.2.2, h1.2.2, h2.2.2]
    simp only [h1.2.1, h2.2.1, if_neg, reduceIte, Option.some.injEq, List.cons.injEq, and_true]
    constructor
    · omega
    · omega
  | case4 a b c rest ih =>
    have ha : a < 256 := hb a (by simp)
    have hbb : b < 256 := hb b (by simp)
    have hc : c < 256 := hb c (by simp)
    have hrest : ∀ x ∈ rest, x < 256 := fun x hx => hb x (by simp [hx])
    have h0 := b64Char_spec ⟨a / 4, by omega⟩
    have h1 := b64Char_spec ⟨a % 4 * 16 + b / 16, by omega⟩
    have h2 := b64Char_spec ⟨b % 16 * 4 + c / 64, by omega⟩
    have h3 := b64Char_spec ⟨c % 64, by omega⟩
    simp only [encodeChunks, List.filter, h0.1, h1.1, h2.1, h3.1]
    simp only [decodeChunks, h0.2.2, h1.2.2, h2.2.2, h3.2.2]
    simp only [h1.2.1, h2.2.1, h3.2.1, if_neg, reduceIte, ih hrest, Option.map_some,
      Option.some.injEq, List.cons.injEq, and_true]
    simp only [Option.map_some', Option.some.injEq, List.cons.injEq, and_true]
    omega

/-- `decodeString` inverts `encodeToString` on byte-valued strings. -/
theorem decodeString_encodeToString (bs : Bytes) (hb : ∀ x ∈ bs, x < 256) :
    decodeString (encodeToString bs) = .ok bs := by
  simp only [decodeString, encodeToString]
  show (match decodeChunks ((encodeChunks bs).filter notNL) with
    | some bs => Except.ok bs
    | none => Except.error "illegal base64 data at input byte") = _
  rw [decode_encodeChunks bs hb]

/-- Length of an encoded string. -/
theorem encodeToString_length (bs : Bytes) :
    (encodeToString bs).length = (bs.length + 2) / 3 * 4 := by
  show (encodeChunks bs).length = _
  exact encodeChunks_length bs

/-- The big-endian framing round trip for 32-bit values. -/
theorem beUint32_u32be (v : Nat) (h : v < 4294967296) : beUint32 (u32be v) = v := by
  simp only [u32be, beUint32]
  omega

/-! ## Characterisation of `Validate` on generated tokens -/

/-- Evaluation of `Validate` on an encoded 20-byte buffer: a 4-byte
timestamp followed by a 16-byte tag.  No panic is possible (the decoded
length is 20 and the capacity 21), the embedded tag is compared against
the recomputed one, and the freshness check runs on the decoded
timestamp. -/
theorem Validate_frame (p : Params) (now : Int) (idv : String) (buf tag : Bytes)
    (hbuf : buf.length = 4) (hbufb : ∀ x ∈ buf, x < 256)
    (htag : tag.length = 16) (htagb : ∀ x ∈ tag, x < 256) :
    Validate p now idv (encodeToString (buf ++ tag)) =
      if hmacSHA256 p.hm p.key buf idv = tag then
        if goSub now ((beUint32 buf : Int) * 1000000000) > p.MaxAge then
          VResult.err "invalid token"
        else VResult.ok
      else VResult.err "invalid token" := by
  have hall : ∀ x ∈ buf ++ tag, x < 256 := by
    intro x hx
    rcases List.mem_append.1 hx with h | h
    exacts [hbufb x h, htagb x h]
  have hlen : (buf ++ tag).length = 20 := by simp [hbuf, htag]
  have hdec : decodeString (encodeToString (buf ++ tag)) = .ok (buf ++ tag) :=
    decodeString_encodeToString _ hall
  have hslen : (encodeToString (buf ++ tag)).length = 28 := by
    rw [encodeToString_length, hlen]
  have hcap : decodedCap (encodeToString (buf ++ tag)) = 21 := by
    simp [decodedCap, hslen]
  have harr : ((buf ++ tag) ++ List.replicate (21 - 20) 0).drop 4 = tag ++ [0] := by
    rw [List.append_assoc, ← hbuf, List.drop_left]
    simp
  have hmac2 : (tag ++ [0]).take 16 = tag := by
    rw [← htag, List.take_left]
  have hdata4 : (buf ++ tag).take 4 = buf := by
    rw [← hbuf, List.take_left]
  simp only [Validate, hdec, hlen, hcap, dataSize, macSize, harr, hmac2, hdata4]
  norm_num

/-- Evaluation of `Validate` on a token produced by `Generate` for
possibly different identities at generation and validation time: the
result is `ok` exactly when the recomputed tag matches the embedded one
and the token is fresh enough. -/
theorem Validate_Generate (p : Params) (T now : Int) (idg idv : String) (Hg : GoodHM p.hm) :
    Validate p now idv (Generate p T idg) =
      if hmacSHA256 p.hm p.key (u32be (unixSec T % 4294967296).toNat) idv =
          hmacSHA256 p.hm p.key (u32be (unixSec T % 4294967296).toNat) idg then
        if goSub now (((unixSec T % 4294967296).toNat : Int) * 1000000000) > p.MaxAge then
          VResult.err "invalid token"
        else VResult.ok
      else VResult.err "invalid token" := by
  have hvlt : (unixSec T % 4294967296).toNat < 4294967296 := by
    have h1 : unixSec T % 4294967296 < 4294967296 := Int.emod_lt_of_pos _ (by norm_num)
    have h0 : (0 : Int) ≤ unixSec T % 4294967296 := Int.emod_nonneg _ (by norm_num)
    omega
  have hg : Generate p T idg =
      encodeToString (u32be (unixSec T % 4294967296).toNat ++
        hmacSHA256 p.hm p.key (u32be (unixSec T % 4294967296).toNat) idg) := rfl
  have htlen : (hmacSHA256 p.hm p.key (u32be (unixSec T % 4294967296).toNat) idg).length = 16 := by
    rw [hmacSHA256, List.length_take, (Hg _ _).1]
    rfl
  have htagb : ∀ x ∈ hmacSHA256 p.hm p.key (u32be (unixSec T % 4294967296).toNat) idg, x < 256 :=
    fun x hx => (Hg _ _).2 x (List.take_subset _ _ hx)
  rw [hg, Validate_frame p now idv _ _ (by simp [u32be]) (by simp [u32be]; omega) htlen htagb,
    beUint32_u32be _ hvlt]

/-- Specialisation of `Validate_Generate` to a matching identity, with
the saturating `goSub` comparison rephrased as exact arithmetic (sound
whenever `0 ≤ MaxAge < 2^63 - 1`, which holds for any Go
`time.Duration` value placed in `MaxAge`). -/
theorem Validate_Generate_same (p : Params) (T now : Int) (id : String) (Hg : GoodHM p.hm)
    (hM0 : 0 ≤ p.MaxAge) (hM1 : p.MaxAge < 9223372036854775807) :
    Validate p now id (Generate p T id) =
      if p.MaxAge < now - (unixSec T % 4294967296) * 1000000000 then
        VResult.err "invalid token"
      else VResult.ok := by
  rw [Validate_Generate p T now id id Hg, if_pos rfl]
  have h0 : (0 : Int) ≤ unixSec T % 4294967296 := Int.emod_nonneg _ (by norm_num)
  have hiff : goSub now (((unixSec T % 4294967296).toNat : Int) * 1000000000) > p.MaxAge ↔
      p.MaxAge < now - (unixSec T % 4294967296) * 1000000000 := by
    rw [Int.toNat_of_nonneg h0]
    simp only [goSub]
    omega
  simp only [hiff]

/-- The concrete byte content of the token `toyParams` generates at
clock reading 0 for identity `"woo"`. -/
def tok8bytes : Bytes := u32be 0 ++ hmacSHA256 toyHm (goCopy [11, 22]) (u32be 0) "woo"

/-- The stand-in HMAC primitive satisfies the HMAC-SHA256 contract. -/
theorem toyHm_good : GoodHM toyHm := by
  intro k m
  constructor
  · simp [toyHm]
  · intro b hb
    simp only [toyHm, List.mem_map] at hb
    obtain ⟨i, _, rfl⟩ := hb
    exact Nat.mod_lt _ (by norm_num)

/-! ## The claims -/

/-- Claim C1.  The claim says `Validate` never panics: it is false of the
code.  The empty string is valid base64 of the empty buffer, after which
`data[dataSize:]` is a slice-bounds violation; `"AAAAAAAA"` decodes to
six bytes, after which `[:macSize]` exceeds the buffer's capacity.  The
AEAD variant's `Validate` panics on the empty token at
`data[0:p.aead.NonceSize()]` in the same way. -/
theorem C1_validate_panics_on_short_tokens :
    Validate toyParams 0 "woo" "" = VResult.panicked ∧
    Validate toyParams 0 "woo" "AAAAAAAA" = VResult.panicked ∧
    TokenParams.Validate toyTokenParams 0 "woo" "" = VResult.panicked := by
  refine ⟨by decide, by decide, by decide⟩

/-- Claim C2, counterexample to the claim as stated.  First instance: a
token generated at clock reading 0.7s and validated 600s later — the
clock has advanced by exactly `MaxAge`, not more, yet validation fails,
because the freshness check measures from the whole second embedded in
the token.  Second instance: a token generated (and at once validated)
at the clock reading 2^32 seconds, where the `uint32` truncation of the
timestamp wraps and the token looks 2^32 seconds old. -/
theorem C2_counterexample :
    (Validate toyParams 600700000000 "woo" (Generate toyParams 700000000 "woo") =
        VResult.err "invalid token" ∧
      (600700000000 : Int) - 700000000 ≤ toyParams.MaxAge) ∧
    (Validate toyParams 4294967296000000000 "woo"
        (Generate toyParams 4294967296000000000 "woo") = VResult.err "invalid token" ∧
      (4294967296000000000 : Int) - 4294967296000000000 ≤ toyParams.MaxAge) := by
  refine ⟨⟨by decide, by decide⟩, ⟨by decide, by decide⟩⟩

/-- Claim C2 as amended: round trip holds when the clock has advanced by
no more than `MaxAge` past the *whole second* recorded in the token
(`unixSec T`), provided that second does not overflow the 32-bit
timestamp and `MaxAge` is non-negative. -/
theorem C2_round_trip (p : Params) (T now : Int) (id : String) (Hg : GoodHM p.hm)
    (hsec : unixSec T < 4294967296) (hM0 : 0 ≤ p.MaxAge)
    (hfresh : now - unixSec T * 1000000000 ≤ p.MaxAge) :
    Validate p now id (Generate p T id) = VResult.ok := by
  have h0 : (0 : Int) ≤ unixSec T % 4294967296 := Int.emod_nonneg _ (by norm_num)
  have hc : ¬ (goSub now (((unixSec T % 4294967296).toNat : Int) * 1000000000) > p.MaxAge) := by
    rw [Int.toNat_of_nonneg h0]
    simp only [goSub]
    omega
  rw [Validate_Generate p T now id id Hg, if_pos rfl, if_neg hc]

/-- Witness for `C2_round_trip` at a concrete codec and time. -/
theorem C2_round_trip_witness :
    Validate toyParams 0 "woo" (Generate toyParams 0 "woo") = VResult.ok :=
  C2_round_trip toyParams 0 0 "woo" toyHm_good (by decide) (by decide) (by decide)

/-- Claim C3, counterexample to the claim as stated: a token generated
at clock reading 0.5s and validated at 600.5s satisfies
`now - T ≤ MaxAge` (exactly `MaxAge`, not more), yet `Validate` rejects
it, because the freshness check measures from the embedded whole
second. -/
theorem C3_counterexample :
    Validate toyParams 600500000000 "yay" (Generate toyParams 500000000 "yay") =
      VResult.err "invalid token" ∧
    (600500000000 : Int) - 500000000 ≤ toyParams.MaxAge := by
  refine ⟨by decide, by decide⟩

/-- Claim C3 as amended: for a token generated at clock time `T` whose
Unix second fits the 32-bit timestamp, validation fails iff the clock
exceeds the embedded whole second (`unixSec T`) by more than `MaxAge`;
the concrete 10-minute cases hold for every such `T`: validation 20
minutes after `T` fails, validation 5 minutes after `T` succeeds. -/
theorem C3_expiry (p : Params) (T now : Int) (id : String) (Hg : GoodHM p.hm)
    (h0 : 0 ≤ unixSec T) (h1 : unixSec T < 4294967296)
    (hM0 : 0 ≤ p.MaxAge) (hM1 : p.MaxAge < 9223372036854775807) :
    (p.MaxAge < now - unixSec T * 1000000000 →
      Validate p now id (Generate p T id) = VResult.err "invalid token") ∧
    (now - unixSec T * 1000000000 ≤ p.MaxAge →
      Validate p now id (Generate p T id) = VResult.ok) ∧
    (p.MaxAge = 600000000000 →
      Validate p (T + 1200000000000) id (Generate p T id) = VResult.err "invalid token") ∧
    (p.MaxAge = 600000000000 →
      Validate p (T + 300000000000) id (Generate p T id) = VResult.ok) := by
  have hT0 : 0 ≤ T - unixSec T * 1000000000 := by
    simp only [unixSec]
    omega
  have hT1 : T - unixSec T * 1000000000 < 1000000000 := by
    simp only [unixSec]
    omega
  refine ⟨fun h => ?_, fun h => ?_, fun h => ?_, fun h => ?_⟩
  · rw [Validate_Generate_same p T now id Hg hM0 hM1, if_pos (by omega)]
  · rw [Validate_Generate_same p T now id Hg hM0 hM1, if_neg (by omega)]
  · rw [Validate_Generate_same p T _ id Hg hM0 hM1, if_pos (by omega)]
  · rw [Validate_Generate_same p T _ id Hg hM0 hM1, if_neg (by omega)]

/-- Witness for `C3_expiry`: the two concrete 10-minute cases at a
concrete codec, with generation at clock reading 0. -/
theorem C3_expiry_witness :
    Validate toyParams 1200000000000 "woo" (Generate toyParams 0 "woo") =
      VResult.err "invalid token" ∧
    Validate toyParams 300000000000 "woo" (Generate toyParams 0 "woo") = VResult.ok :=
  ⟨(C3_expiry toyParams 0 1200000000000 "woo" toyHm_good (by decide) (by decide)
      (by decide) (by decide)).2.2.1 rfl,
   (C3_expiry toyParams 0 300000000000 "woo" toyHm_good (by decide) (by decide)
      (by decide) (by decide)).2.2.2 rfl⟩

/-- Claim C4: a token minted for `id1` never validates for `id2`,
regardless of the clock, provided the truncated MACs of the two
identities over the token's timestamp differ — the hypothesis that
models collision-resistance of the external truncated HMAC-SHA256, the
only property of it the code relies on. -/
theorem C4_identity_binding (p : Params) (T now : Int) (id1 id2 : String)
    (Hg : GoodHM p.hm)
    (hne : hmacSHA256 p.hm p.key (u32be (unixSec T % 4294967296).toNat) id2 ≠
      hmacSHA256 p.hm p.key (u32be (unixSec T % 4294967296).toNat) id1) :
    Validate p now id2 (Generate p T id1) = VResult.err "invalid token" := by
  rw [Validate_Generate p T now id1 id2 Hg, if_neg hne]

/-- Witness for `C4_identity_binding` at a concrete codec and identities
`"a"` and `"b"`, validated at the very moment of generation. -/
theorem C4_identity_binding_witness :
    Validate toyParams 0 "b" (Generate toyParams 0 "a") = VResult.err "invalid token" :=
  C4_identity_binding toyParams 0 0 "a" "b" toyHm_good (by decide)

/-- Claim C5: an authentic token whose embedded timestamp lies after the
current clock reading is accepted — only staleness beyond `MaxAge` is
bounded, not futurity. -/
theorem C5_future_accepted (p : Params) (T now : Int) (id : String) (Hg : GoodHM p.hm)
    (hM0 : 0 ≤ p.MaxAge)
    (hfut : now < (unixSec T % 4294967296) * 1000000000) :
    Validate p now id (Generate p T id) = VResult.ok := by
  have h0 : (0 : Int) ≤ unixSec T % 4294967296 := Int.emod_nonneg _ (by norm_num)
  have hc : ¬ (goSub now (((unixSec T % 4294967296).toNat : Int) * 1000000000) > p.MaxAge) := by
    rw [Int.toNat_of_nonneg h0]
    simp only [goSub]
    omega
  rw [Validate_Generate p T now id id Hg, if_pos rfl, if_neg hc]

/-- Witness for `C5_future_accepted`: a token generated at clock reading
1000s validates at clock reading 0. -/
theorem C5_future_accepted_witness :
    Validate toyParams 0 "woo" (Generate toyParams 1000000000000 "woo") = VResult.ok :=
  C5_future_accepted toyParams 1000000000000 0 "woo" toyHm_good (by decide) (by decide)

/-- Claim C6: fixed token lengths — 28 base64-url characters for the MAC
variant (given the 32-byte HMAC-SHA256 digest), 44 for the AEAD variant
(given GCM's 12-byte nonce and 16-byte overhead). -/
theorem C6_token_lengths :
    (∀ (p : Params) (now : Int) (id : String), GoodHM p.hm →
      (Generate p now id).length = 28) ∧
    (∀ (tp : TokenParams) (nonce : Bytes) (now : Int) (id : String),
      tp.nonceSize = 12 → nonce.length = tp.nonceSize →
      (∀ n pt ad, (tp.sealAEAD n pt ad).length = pt.length + 16) →
      (TokenParams.Generate tp nonce now id).length = 44) := by
  constructor
  · intro p now id Hg
    show (encodeToString _).length = 28
    rw [encodeToString_length]
    have h20 : (u32be (unixSec now % 4294967296).toNat ++
        hmacSHA256 p.hm p.key (u32be (unixSec now % 4294967296).toNat) id).length = 20 := by
      rw [List.length_append, hmacSHA256, List.length_take, (Hg _ _).1]
      rfl
    rw [h20]
  · intro tp nonce now id h12 hn hs
    show (encodeToString _).length = 44
    rw [encodeToString_length]
    have h32 : (nonce ++ tp.sealAEAD nonce (u32be (unixSec now % 4294967296).toNat)
        (utf8Bytes id)).length = 32 := by
      rw [List.length_append, hn, h12, hs]
      rfl
    rw [h32]

/-- Witness for `C6_token_lengths` at concrete codecs of both
variants. -/
theorem C6_token_lengths_witness :
    (Generate toyParams 0 "woo").length = 28 ∧
    (TokenParams.Generate toyTokenParams (List.range 12) 0 "woo").length = 44 :=
  ⟨C6_token_lengths.1 toyParams 0 "woo" toyHm_good,
   C6_token_lengths.2 toyTokenParams (List.range 12) 0 "woo" rfl (by decide)
     (fun n pt ad => by simp [toyTokenParams, toySeal])⟩

/-- Claim C7: whenever `Validate` returns an error value, that value is
the single `ErrInvalidToken` — the decode error is never propagated and
no failure cause is distinguishable from the result. -/
theorem C7_single_error_value (p : Params) (now : Int) (id token e : String)
    (h : Validate p now id token = VResult.err e) : e = "invalid token" := by
  unfold Validate at h
  split at h
  · injection h with h2
    exact h2.symm
  · split at h
    · simp at h
    · split at h
      · simp at h
      · split at h
        · split at h
          · injection h with h2
            exact h2.symm
          · simp at h
        · injection h with h2
          exact h2.symm

/-- Witness for `C7_single_error_value` at a malformed concrete token. -/
theorem C7_single_error_value_witness :
    Validate toyParams 0 "woo" "!" = VResult.err "invalid token" ∧
    "invalid token" = "invalid token" :=
  ⟨by decide, C7_single_error_value toyParams 0 "woo" "!" "invalid token" (by decide)⟩

/-- Claim C8: `Validate` of the MAC variant inspects only the first 20
decoded bytes.  The concrete fresh token for `"woo"` decodes to
`tok8bytes`; appending three extra bytes and re-encoding yields a
longer, different token string that still validates for the same
identity. -/
theorem C8_extra_bytes_accepted :
    decodeString (Generate toyParams 0 "woo") = Except.ok tok8bytes ∧
    (Generate toyParams 0 "woo").length = 28 ∧
    (encodeToString (tok8bytes ++ [7, 7, 7])).length = 32 ∧
    encodeToString (tok8bytes ++ [7, 7, 7]) ≠ Generate toyParams 0 "woo" ∧
    Validate toyParams 0 "woo" (Generate toyParams 0 "woo") = VResult.ok ∧
    Validate toyParams 0 "woo" (encodeToString (tok8bytes ++ [7, 7, 7])) = VResult.ok := by
  refine ⟨rfl, by decide, by decide, by decide, by decide, by decide⟩

/-- Claim C9: the codec the HTTP adapter builds overrides the 10-minute
default `MaxAge` set by `New` with 3 hours, and consequently accepts any
authentic token up to 3 hours old. -/
theorem C9_wrap_max_age (hm : Bytes → Bytes → Bytes) (hp : HTTPParams) :
    (wrapCodec hm hp).MaxAge = 3 * 3600 * 1000000000 ∧
    (New hm hp.Key).MaxAge = 10 * 60 * 1000000000 ∧
    (∀ (T now : Int) (id : String), GoodHM hm →
      unixSec T < 4294967296 →
      now - unixSec T * 1000000000 ≤ 10800000000000 →
      Validate (wrapCodec hm hp) now id (Generate (wrapCodec hm hp) T id) = VResult.ok) := by
  refine ⟨by norm_num [wrapCodec, New], by norm_num [New], ?_⟩
  intro T now id Hg hsec hage
  exact C2_round_trip (wrapCodec hm hp) T now id Hg hsec (by norm_num [wrapCodec, New]) hage

/-- Witness for `C9_wrap_max_age`: the wrapped codec accepts a token
exactly 3 hours old. -/
theorem C9_wrap_max_age_witness :
    Validate (wrapCodec toyHm ⟨[11, 22]⟩) 10800000000000 "woo"
      (Generate (wrapCodec toyHm ⟨[11, 22]⟩) 0 "woo") = VResult.ok :=
  (C9_wrap_max_age toyHm ⟨[11, 22]⟩).2.2 0 10800000000000 "woo" toyHm_good
    (by decide) (by decide)

/-- Claim C10: `New` copies the key.  In the heap model, mutating the
caller's buffer (heap cell 0) to arbitrary bytes `k2` after `NewRef`
changes neither generated tokens nor validation results, and the
unmutated behaviour coincides with the value-level `New`. -/
theorem C10_key_copied (hm : Bytes → Bytes → Bytes) (k k2 : Bytes) (now : Int)
    (id token : String) :
    GenerateRef hm (heapWrite (NewRef [k] 0).1 0 k2) (NewRef [k] 0).2 now id =
      GenerateRef hm (NewRef [k] 0).1 (NewRef [k] 0).2 now id ∧
    ValidateRef hm (heapWrite (NewRef [k] 0).1 0 k2) (NewRef [k] 0).2 now id token =
      ValidateRef hm (NewRef [k] 0).1 (NewRef [k] 0).2 now id token ∧
    GenerateRef hm (NewRef [k] 0).1 (NewRef [k] 0).2 now id = Generate (New hm k) now id := by
  refine ⟨rfl, rfl, rfl⟩

end Charlie
